import Mathlib

/-!
Verification of the devon_agent orchestration core (planner, dispatcher,
orchestrator, memory store) against its natural-language specification.
Python code is shallowly embedded: pure functions become Lean functions,
stateful methods become explicit state-passing functions, exceptions become
`Except`, and the collaborator I/O performed inside dispatcher handlers is
abstracted by an oracle supplying each handler's outcome.
-/

namespace DevonAgent

/-! ## String primitives

Python substring membership (`needle in hay`) and `str.startswith` on the
character lists of the strings. -/

/-- Boolean prefix test on character lists (`as` is a prefix of `bs`). -/
def isPrefixB : List Char → List Char → Bool
  | [], _ => true
  | _ :: _, [] => false
  | a :: as, b :: bs => a == b && isPrefixB as bs

/-- Boolean contiguous-sublist test: `needle` occurs inside `hay`. -/
def isSubListB (needle : List Char) : List Char → Bool
  | [] => needle.isEmpty
  | b :: bs => isPrefixB needle (b :: bs) || isSubListB needle bs

/-- Python `s.lower()` (ASCII case folding), written over the character
list so that it evaluates by kernel reduction. -/
def pyLower (s : String) : String :=
  String.mk (s.toList.map Char.toLower)

/-- Python `s[:n]` character slicing. -/
def sliceTo (s : String) (n : Nat) : String :=
  String.mk (s.toList.take n)

/-- Python `needle in hay` for strings (substring containment). -/
def containsSub (hay needle : String) : Bool :=
  isSubListB needle.toList hay.toList

/-- Python `s.startswith(pre)`. -/
def startsWithB (s pre : String) : Bool :=
  isPrefixB pre.toList s.toList

/-- CPython dict assignment `d[k] = v`: replace in place if the key exists,
otherwise append at the end. -/
def dictSet {α : Type} (d : List (String × α)) (k : String) (v : α) :
    List (String × α) :=
  if d.any (fun p => p.1 = k) then
    d.map (fun p => if p.1 = k then (k, v) else p)
  else
    d ++ [(k, v)]

/-- CPython dict lookup `d.get(k)` (first binding of the key). -/
def dictFind {α : Type} : List (String × α) → String → Option α
  | [], _ => none
  | p :: rest, k => if p.1 = k then some p.2 else dictFind rest k

/-! ## Planner (src/devon_agent/planner.py)

`TaskPlanner` holds no mutable state; its methods are pure.  The
`estimated_time` field of the Python `TaskPlan` dataclass is never assigned
(always `None`) and is omitted from the embedding. -/

/-- `TaskPlan` dataclass: ordered tasks, dependency map, complexity label. -/
structure TaskPlan where
  tasks : List String
  dependencies : List (String × List String)
  complexity : Option String
deriving DecidableEq

/-- The `complex_keywords` list of `TaskPlanner._analyze_complexity`. -/
def complex_keywords : List String :=
  ["implement", "refactor", "optimize", "migrate", "deploy"]

/-- The `simple_keywords` list of `TaskPlanner._analyze_complexity`. -/
def simple_keywords : List String :=
  ["fix", "add", "update", "change", "rename"]

/-- `TaskPlanner._analyze_complexity(request)`. -/
def analyze_complexity (request : String) : String :=
  let request_lower := pyLower request
  if complex_keywords.any (fun keyword => containsSub request_lower keyword) then
    "complex"
  else if simple_keywords.any (fun keyword => containsSub request_lower keyword) then
    "simple"
  else if request.length > 200 then
    "complex"
  else
    "moderate"

/-- `TaskPlanner._select_strategy(complexity)`: the `strategy_map` dict
lookup with default `"sequential"`. -/
def select_strategy (complexity : String) : String :=
  if complexity = "simple" then "sequential"
  else if complexity = "moderate" then "parallel"
  else if complexity = "complex" then "hierarchical"
  else "sequential"

/-- `TaskPlanner._sequential_planning(request)` (the `context` argument is
unused by the Python body). -/
def sequential_planning (request : String) : List String :=
  if containsSub (pyLower request) "test" then
    ["Analyze existing test coverage", "Write unit tests", "Run tests and verify"]
  else if containsSub (pyLower request) "api" then
    ["Design API endpoints", "Implement API handlers", "Add API documentation"]
  else if containsSub (pyLower request) "bug" || containsSub (pyLower request) "fix" then
    ["Identify the bug location", "Analyze root cause", "Implement fix",
     "Verify fix works"]
  else
    ["Understand requirements", "Implement solution", "Test implementation"]

/-- `TaskPlanner._parallel_planning(request)`: sequential plan with a
`"[Parallel] "` marker on tasks containing "test" or "document". -/
def parallel_planning (request : String) : List String :=
  (sequential_planning request).map (fun task =>
    if containsSub (pyLower task) "test" || containsSub (pyLower task) "document" then
      "[Parallel] " ++ task
    else task)

/-- `TaskPlanner._hierarchical_planning(request)`: fixed checklist expanded
with sub-items after "Implement"- and "test"-containing items. -/
def hierarchical_planning (_request : String) : List String :=
  let high_level_tasks :=
    ["1. Analyze requirements", "2. Design solution architecture",
     "3. Implement core functionality", "4. Add error handling and edge cases",
     "5. Write tests", "6. Document implementation"]
  high_level_tasks.foldl (fun acc task =>
    if containsSub task "Implement" then
      acc ++ [task, "  - Set up project structure", "  - Implement main logic",
              "  - Add helper functions"]
    else if containsSub (pyLower task) "test" then
      acc ++ [task, "  - Write unit tests", "  - Write integration tests"]
    else acc ++ [task]) []

/-- `TaskPlanner._identify_dependencies(tasks)`: each non-`[Parallel]` task at
index `i > 0` depends on the nearest earlier non-`[Parallel]` task. -/
def identify_dependencies (tasks : List String) : List (String × List String) :=
  (List.range tasks.length).foldl (fun acc i =>
    let task := tasks.getD i ""
    let deps :=
      if 0 < i && !(startsWithB task "[Parallel]") then
        match (List.range i).reverse.find? (fun j =>
            !(startsWithB (tasks.getD j "") "[Parallel]")) with
        | some j => [tasks.getD j ""]
        | none => []
      else []
    if deps.isEmpty then acc else dictSet acc task deps) []

/-- Strategy lookup `self.planning_strategies[strategy]`; `_select_strategy`
only ever produces the three keys of that dict. -/
def run_strategy (strategy request : String) : List String :=
  if strategy = "sequential" then sequential_planning request
  else if strategy = "parallel" then parallel_planning request
  else hierarchical_planning request

/-- `TaskPlanner.create_plan(request, context)`; the `context` argument is
passed through to the strategy bodies, which ignore it. -/
def create_plan (request : String) (_context : List (String × String)) : TaskPlan :=
  let complexity := analyze_complexity request
  let strategy := select_strategy complexity
  let tasks := run_strategy strategy request
  let dependencies := identify_dependencies tasks
  { tasks := tasks, dependencies := dependencies, complexity := some complexity }

/-! ## Memory store (src/devon_agent/memory.py)

`MemoryManager` state: a bounded `deque` (`short_term`), a `dict`
(`long_term`, modelled as an insertion-ordered association list exactly as
CPython dicts behave), and an unbounded list (`interactions`).
`datetime.now()` is nondeterministic, so every embedded operation takes the
produced timestamp as an explicit argument.  The pickle round trip through
the persistence path is modelled as an in-memory snapshot value. -/

/-- One entry of `self.interactions` / `self.short_term`. -/
structure Interaction where
  timestamp : String
  role : String
  content : String
  metadata : List (String × String)
deriving DecidableEq

/-- A `self.long_term` value: the three dict shapes stored by
`_extract_to_long_term`. -/
inductive Fact where
  | fileFact (last_mentioned : String) (context : String)
  | defFact (defined_at : String) (type : String)
  | errorFact (timestamp : String) (content : String)
deriving DecidableEq

/-- Regex `\w` (ASCII range, as used by the extraction patterns). -/
def isWordChar (c : Char) : Bool := c.isAlphanum || c == '_'

/-- The character class `[./\\]` of the file-path pattern. -/
def isPathSep (c : Char) : Bool := c == '.' || c == '/' || c == '\\'

/-- The character class `[\w./\\-]` of the file-path pattern. -/
def isPathChar (c : Char) : Bool := isWordChar c || isPathSep c || c == '-'

/-- Regex `\s` (the six ASCII whitespace characters). -/
def isSpaceChar (c : Char) : Bool :=
  c == ' ' || c == '\t' || c == '\n' || c == '\r' || c == '\x0b' || c == '\x0c'

/-- Longest run of characters satisfying `p` at the front of the list. -/
def takeRun (p : Char → Bool) : List Char → List Char
  | [] => []
  | c :: cs => if p c then c :: takeRun p cs else []

/-- Greedy backtracking for the tail `\.\w+` of the file-path regex
`[./\\]?[\w./\\-]+\.\w+`: try the split point `j` of the `[\w./\\-]+` part
from largest to smallest, returning the total matched length. -/
def findDotSplit (cs : List Char) : Nat → Option Nat
  | 0 => none
  | j + 1 =>
    match cs.drop (j + 1) with
    | '.' :: ds =>
      let wr := takeRun isWordChar ds
      if wr.isEmpty then findDotSplit cs j else some ((j + 1) + 1 + wr.length)
    | _ => findDotSplit cs j

/-- Length of the leftmost match of `[\w./\\-]+\.\w+` anchored at the head
of `cs`, with the regex engine's greedy semantics. -/
def matchPathCore (cs : List Char) : Option Nat :=
  findDotSplit cs (takeRun isPathChar cs).length

/-- Length of the leftmost match of the full pattern
`[./\\]?[\w./\\-]+\.\w+` anchored at the head of `cs`; the optional prefix
class is tried greedily first, as `re` does. -/
def matchPathAt (cs : List Char) : Option Nat :=
  match cs with
  | [] => none
  | c :: rest =>
    if isPathSep c then
      match matchPathCore rest with
      | some n => some (1 + n)
      | none => matchPathCore cs
    else matchPathCore cs

/-- `re.findall(r'[./\\]?[\w./\\-]+\.\w+', content)`: non-overlapping
leftmost matches.  Scanning advances at least one character per step, so
the character count is an exact step bound. -/
def scanPaths : Nat → List Char → List String
  | 0, _ => []
  | _, [] => []
  | fuel + 1, c :: rest =>
    match matchPathAt (c :: rest) with
    | some n =>
      String.mk ((c :: rest).take n) :: scanPaths fuel ((c :: rest).drop n)
    | none => scanPaths fuel rest

/-- All file-path-like substrings of `content`, in match order. -/
def findPaths (content : String) : List String :=
  scanPaths content.toList.length content.toList

/-- Leftmost match of `kw\s+(\w+)` anchored at the head of `cs`; returns
the captured `\w+` group and the total matched length. -/
def matchDefAt (kw : List Char) (cs : List Char) : Option (String × Nat) :=
  if isPrefixB kw cs then
    let rest := cs.drop kw.length
    let ws := takeRun isSpaceChar rest
    if ws.isEmpty then none
    else
      let name := takeRun isWordChar (rest.drop ws.length)
      if name.isEmpty then none
      else some (String.mk name, kw.length + ws.length + name.length)
  else none

/-- `re.findall(kw + r'\s+(\w+)', content)`: the captured names of the
non-overlapping leftmost matches. -/
def scanDefs (kw : List Char) : Nat → List Char → List String
  | 0, _ => []
  | _, [] => []
  | fuel + 1, c :: rest =>
    match matchDefAt kw (c :: rest) with
    | some (name, n) => name :: scanDefs kw fuel ((c :: rest).drop n)
    | none => scanDefs kw fuel rest

/-- The captured groups of `re.findall(r'def\s+(\w+)', content)` (and
likewise for `class`). -/
def findDefNames (kw content : String) : List String :=
  scanDefs kw.toList content.toList.length content.toList

/-- `MemoryManager` state (the `persistence_path` handling is pure I/O and
is modelled by the snapshot functions below). -/
structure MemoryManager where
  max_short_term : Nat
  short_term : List Interaction
  long_term : List (String × Fact)
  interactions : List Interaction
deriving DecidableEq

/-- Fresh `MemoryManager(max_short_term)` with no persisted state. -/
def init_memory (max_short_term : Nat) : MemoryManager :=
  { max_short_term := max_short_term, short_term := [], long_term := [],
    interactions := [] }

/-- The last `n` elements of a list (`l[-n:]` for `n > 0`). -/
def lastN {α : Type} (n : Nat) (l : List α) : List α :=
  l.drop (l.length - n)

/-- `deque.append` on a deque with `maxlen = n`: the oldest entries are
evicted from the left so that at most `n` remain.  For a buffer already
within its bound this is exactly CPython's behaviour. -/
def dequePush {α : Type} (n : Nat) (buf : List α) (x : α) : List α :=
  lastN n (buf ++ [x])

/-- Number of `long_term` keys starting with `"error_"`, as computed by
`len([k for k in self.long_term if k.startswith('error_')])`. -/
def error_count (d : List (String × Fact)) : Nat :=
  (d.filter (fun p => startsWithB p.1 "error_")).length

/-- First mutation step of `_extract_to_long_term`: the file-path facts. -/
def extract_files (lt : List (String × Fact)) (i : Interaction) :
    List (String × Fact) :=
  if containsSub i.content "/" || containsSub i.content "\\" then
    (findPaths i.content).foldl
      (fun d path =>
        dictSet d ("file_" ++ path) (Fact.fileFact i.timestamp (sliceTo i.content 100)))
      lt
  else lt

/-- Second mutation step of `_extract_to_long_term`: the function and class
facts.  Both `findall` calls run whenever either `"def "` or `"class "`
occurs in the content, exactly as in the Python body. -/
def extract_defs (lt : List (String × Fact)) (i : Interaction) :
    List (String × Fact) :=
  if containsSub i.content "def " || containsSub i.content "class " then
    let funcs := findDefNames "def" i.content
    let classes := findDefNames "class" i.content
    let d1 := funcs.foldl
      (fun d name => dictSet d ("function_" ++ name) (Fact.defFact i.timestamp "function"))
      lt
    classes.foldl
      (fun d name => dictSet d ("class_" ++ name) (Fact.defFact i.timestamp "class"))
      d1
  else lt

/-- Third mutation step of `_extract_to_long_term`: the `error_<k>` fact,
where `k` is the number of `error_*` keys present at this point. -/
def extract_errors (lt : List (String × Fact)) (i : Interaction) :
    List (String × Fact) :=
  if containsSub (pyLower i.content) "error" || containsSub (pyLower i.content) "exception" then
    dictSet lt ("error_" ++ toString (error_count lt))
      (Fact.errorFact i.timestamp (sliceTo i.content 200))
  else lt

/-- `MemoryManager._extract_to_long_term(interaction)`: the three mutation
steps applied to `self.long_term` in source order. -/
def extract_to_long_term (m : MemoryManager) (i : Interaction) : MemoryManager :=
  { m with long_term := extract_errors (extract_defs (extract_files m.long_term i) i) i }

/-- `MemoryManager.add_interaction(role, content, metadata)` with the
timestamp produced by `datetime.now()` passed explicitly. -/
def add_interaction (m : MemoryManager) (ts role content : String)
    (metadata : List (String × String)) : MemoryManager :=
  let i : Interaction :=
    { timestamp := ts, role := role, content := content, metadata := metadata }
  let m1 := { m with
    interactions := m.interactions ++ [i],
    short_term := dequePush m.max_short_term m.short_term i }
  extract_to_long_term m1 i

/-- `MemoryManager.get_recent_context(n)` = `list(self.short_term)[-n:]`;
for `n = 0` the Python slice `[-0:]` is the whole buffer. -/
def get_recent_context (m : MemoryManager) (n : Nat) : List Interaction :=
  if n = 0 then m.short_term else lastN n m.short_term

/-- The pickled blob written by `save_memory` (its unused `timestamp` entry
is omitted). -/
structure MemorySnapshot where
  long_term : List (String × Fact)
  interactions : List Interaction
deriving DecidableEq

/-- `MemoryManager.save_memory()`. -/
def save_memory (m : MemoryManager) : MemorySnapshot :=
  { long_term := m.long_term, interactions := m.interactions }

/-- The slice `self.interactions[-maxlen:]` taken by `load_memory`; for
`maxlen = 0` the Python slice `[-0:]` is the whole list. -/
def load_slice (maxlen : Nat) (interactions : List Interaction) : List Interaction :=
  if maxlen = 0 then interactions else lastN maxlen interactions

/-- `MemoryManager.load_memory()`: restore `long_term` and `interactions`
from the blob, then append the tail slice of the restored log onto the
(uncleared) `short_term` deque. -/
def load_memory (m : MemoryManager) (snap : MemorySnapshot) : MemoryManager :=
  { m with
    long_term := snap.long_term,
    interactions := snap.interactions,
    short_term :=
      (load_slice m.max_short_term snap.interactions).foldl
        (dequePush m.max_short_term) m.short_term }

/-- `MemoryManager.clear()`. -/
def clear_memory (m : MemoryManager) : MemoryManager :=
  { m with short_term := [], long_term := [], interactions := [] }

/-! ## Dispatcher (src/devon_agent/executor.py)

`CodeExecutor.execute_task` routes the task text through an `if/elif`
keyword chain to one of five handlers and catches any exception the chosen
handler raises.  The handler bodies perform file-system and subprocess
I/O; their outcomes (a result dict, or a raised exception) are supplied by
an oracle in the embedding. -/

/-- The five routing targets of `CodeExecutor.execute_task`. -/
inductive Handler where
  | testH
  | implementationH
  | analyzeH
  | debugH
  | genericH
deriving DecidableEq

/-- One entry of a result's `code_changes` list. -/
structure CodeChange where
  file : String
  action : String
  lines : Nat
deriving DecidableEq

/-- A result's `artifacts` dict; a category key absent from the Python dict
is modelled as the empty list (extension by an absent or empty list is the
same). -/
structure Artifacts where
  files_created : List String
  files_modified : List String
  commands_executed : List String
  errors : List String
deriving DecidableEq

/-- A handler result dict.  `success` is the truthiness of
`result.get("success")` (an absent key is falsy); `context` is
`result.get("context", {})`. -/
structure TaskResult where
  success : Bool
  summary : Option String
  code_changes : Option (List CodeChange)
  context : List (String × String)
  artifacts : Option Artifacts
  error : Option String
  task : Option String
deriving DecidableEq

/-- The `if/elif` routing chain of `CodeExecutor.execute_task`
(lines 44-53): first case-insensitive substring match wins. -/
def routeTask (task : String) : Handler :=
  if containsSub (pyLower task) "test" then Handler.testH
  else if containsSub (pyLower task) "implement" || containsSub (pyLower task) "write" then
    Handler.implementationH
  else if containsSub (pyLower task) "analyze" then Handler.analyzeH
  else if containsSub (pyLower task) "fix" || containsSub (pyLower task) "debug" then
    Handler.debugH
  else Handler.genericH

/-- Oracle for the effectful parts of the system: `run h task` is the
outcome of handler `h`'s body on `task` (`Except.error` models a raised
exception, carrying `str(e)`), and `clock` supplies the successive
`datetime.now()` timestamps. -/
structure Env where
  run : Handler → String → Except String TaskResult
  clock : Nat → String

/-- The failure dict built by the `except` clause of
`CodeExecutor.execute_task` (lines 55-61). -/
def handlerFailure (e task : String) : TaskResult :=
  { success := false, summary := none, code_changes := none, context := [],
    artifacts := none, error := some e, task := some task }

/-- `CodeExecutor.execute_task(task, ...)`: route, run the chosen handler,
and convert a raised exception into the failure dict. -/
def dispatchTask (env : Env) (task : String) : TaskResult :=
  match env.run (routeTask task) task with
  | Except.ok r => r
  | Except.error e => handlerFailure e task

/-! ## Orchestrator (src/devon_agent/core.py) -/

/-- `AgentState` plus the agent-owned `MemoryManager`
(`completed_tasks`/`pending_tasks`/`context` as in the dataclass). -/
structure Agent where
  current_task : Option String
  completed_tasks : List String
  pending_tasks : List String
  context : List (String × String)
  memory : MemoryManager
deriving DecidableEq

/-- A fresh `AgentState()` together with a fresh default memory
(`DevonAgent.__init__` / `DevonAgent.reset`). -/
def init_agent : Agent :=
  { current_task := none, completed_tasks := [], pending_tasks := [],
    context := [], memory := init_memory 100 }

/-- `dict.update(other)`: assign every binding of `other` in order. -/
def ctxUpdate (d other : List (String × String)) : List (String × String) :=
  other.foldl (fun d p => dictSet d p.1 p.2) d

/-- Python `list.remove(x)`: delete the first occurrence of `x` (in the
orchestrator loop the element is always present, so the raising branch of
the Python method is unreachable). -/
def list_remove {α : Type} [DecidableEq α] : List α → α → List α
  | [], _ => []
  | x :: xs, a => if x = a then xs else x :: list_remove xs a

/-- The response dict built by `DevonAgent._synthesize_response`. -/
structure SynthResponse where
  summary : String
  code_changes : List CodeChange
  total_tasks : Nat
  successful_tasks : Nat
deriving DecidableEq

/-- `DevonAgent._synthesize_response(results)`: one pass appending the
summary of each successful result and extending `code_changes` from it. -/
def synthesize_response (results : List TaskResult) : SynthResponse :=
  let acc := results.foldl
    (fun acc r =>
      if r.success then
        (acc.1 ++ [r.summary.getD "Task completed"],
         acc.2 ++ r.code_changes.getD [])
      else acc)
    (([] : List String), ([] : List CodeChange))
  { summary := String.intercalate "\n" acc.1,
    code_changes := acc.2,
    total_tasks := results.length,
    successful_tasks := results.countP (fun r => r.success) }

/-- `DevonAgent._collect_artifacts(results)`: concatenate each artifact
category across all results, in order. -/
def collect_artifacts (results : List TaskResult) : Artifacts :=
  results.foldl
    (fun acc r =>
      match r.artifacts with
      | some a =>
        { files_created := acc.files_created ++ a.files_created,
          files_modified := acc.files_modified ++ a.files_modified,
          commands_executed := acc.commands_executed ++ a.commands_executed,
          errors := acc.errors ++ a.errors }
      | none => acc)
    { files_created := [], files_modified := [], commands_executed := [],
      errors := [] }

/-- The dict returned by `DevonAgent.process_request` (success and failure
shapes share this type; absent keys are `none`). -/
structure RunResult where
  success : Bool
  error : Option String
  response : Option SynthResponse
  tasks_completed : List String
  artifacts : Option Artifacts
deriving DecidableEq

/-- State of the task loop after it finishes. -/
structure LoopOut where
  tasks : List String
  agent : Agent
  results : List TaskResult
  clockIdx : Nat
deriving DecidableEq

/-- The `for task in plan.tasks` loop of `process_request` (lines 85-103),
with CPython's list-iterator semantics made explicit: the iterator holds an
index `i` into the list object, and `self.state.pending_tasks` is the SAME
list object as `plan.tasks` (line 81 binds a reference, not a copy), so the
`pending_tasks.remove(task)` on line 98 mutates the sequence being
iterated.  `tasks` is that shared list object.  Each step increments `i`
and shortens the list by one, so the iteration count never exceeds the
list's initial length; `fuel` is initialised to that length, which makes
the fuel recursion exact. -/
def task_loop (env : Env) :
    Nat → Nat → Nat → List String → Agent → List TaskResult → LoopOut
  | 0, k, _, tasks, a, results =>
    { tasks := tasks, agent := a, results := results, clockIdx := k }
  | fuel + 1, k, i, tasks, a, results =>
    if h : i < tasks.length then
      let task := tasks.get ⟨i, h⟩
      let result := dispatchTask env task
      let tasks2 := list_remove tasks task
      let a2 : Agent :=
        { current_task := some task,
          completed_tasks := a.completed_tasks ++ [task],
          pending_tasks := tasks2,
          context := ctxUpdate a.context result.context,
          memory := add_interaction a.memory (env.clock k) "assistant"
            ("Completed: " ++ task) [] }
      task_loop env fuel (k + 1) (i + 1) tasks2 a2 (results ++ [result])
    else
      { tasks := tasks, agent := a, results := results, clockIdx := k }

/-- `DevonAgent.process_request(user_request)`.  `planResult` is the
outcome of the awaited `self.planner.create_plan` call (`Except.error`
models the plan-creation tier of the `try/except`); the embedded
`create_plan` itself is total, mirroring the Python body.  Returns the
response dict and the post-call agent. -/
def process_request (env : Env) (planResult : Except String TaskPlan)
    (user_request : String) (a : Agent) : RunResult × Agent :=
  let a0 := { a with
    memory := add_interaction a.memory (env.clock 0) "user" user_request [] }
  match planResult with
  | Except.error e =>
    ({ success := false, error := some e, response := none,
       tasks_completed := a0.completed_tasks, artifacts := none }, a0)
  | Except.ok plan =>
    let a1 := { a0 with pending_tasks := plan.tasks }
    let out := task_loop env plan.tasks.length 1 0 plan.tasks a1 []
    let response := synthesize_response out.results
    let a3 := { out.agent with
      memory := add_interaction out.agent.memory (env.clock out.clockIdx)
        "assistant" response.summary [] }
    ({ success := true, error := none, response := some response,
       tasks_completed := a3.completed_tasks,
       artifacts := some (collect_artifacts out.results) }, a3)

/-! ## Spec-side definitions and concrete fixtures -/

/-- The synthesis rule for `codeChanges` as the specification words it:
"concatenation (no dedup) of every result's code-change records, in task
order" — i.e. including the records of failed results.  Stated from the
spec sentence for comparison with `synthesize_response`. -/
def spec_code_changes_every_result (results : List TaskResult) : List CodeChange :=
  (results.map (fun r => r.code_changes.getD [])).flatten

/-- Oracle whose handlers all return the generic-style success dict. -/
def env0 : Env :=
  { run := fun _ task => Except.ok
      { success := true, summary := some ("Completed: " ++ task),
        code_changes := none, context := [("last_task", task)],
        artifacts := none, error := none, task := none },
    clock := fun _ => "t" }

/-- Oracle whose handlers all raise. -/
def env_throw : Env :=
  { run := fun _ _ => Except.error "boom", clock := fun _ => "t" }

/-- A failed result carrying a code-change record. -/
def failed_change_result : TaskResult :=
  { success := false, summary := some "failed",
    code_changes := some [{ file := "a.py", action := "created", lines := 3 }],
    context := [], artifacts := none, error := some "boom", task := some "t" }

/-- A memory store holding one interaction (capacity 3): the state after
`add_interaction("user", "hello")` on a fresh store. -/
def memC7 : MemoryManager :=
  add_interaction (init_memory 3) "t0" "user" "hello" []

/-- A 201-character request containing no planner keyword. -/
def long_request : String := String.mk (List.replicate 201 'z')

/-- Three interaction triples for exercising the recent buffer. -/
def entriesC8 : List (String × String × String) :=
  [("t1", "user", "one"), ("t2", "user", "two"), ("t3", "user", "three")]

/-- Repeated `add_interaction` with the timestamps, roles, contents and
empty metadata taken from a list of triples. -/
def insert_all (m : MemoryManager) (entries : List (String × String × String)) :
    MemoryManager :=
  entries.foldl (fun m e => add_interaction m e.1 e.2.1 e.2.2 []) m

/-- The `Interaction` built by `add_interaction` from a triple. -/
def mk_interaction (e : String × String × String) : Interaction :=
  { timestamp := e.1, role := e.2.1, content := e.2.2, metadata := [] }

/-! ## Helper lemmas -/

/-- `lastN` keeps at most `n` elements. -/
theorem lastN_length {α : Type} (n : Nat) (l : List α) :
    (lastN n l).length = l.length - (l.length - n) := by
  simp [lastN]

/-- Truncating to the last `n` before appending does not change the last
`n` of the whole. -/
theorem lastN_append_absorb {α : Type} (n : Nat) (l t : List α) :
    lastN n (lastN n l ++ t) = lastN n (l ++ t) := by
  unfold lastN
  rw [List.drop_append_eq_append_drop, List.drop_append_eq_append_drop,
    List.drop_drop]
  have h1 : l.length - n + ((List.drop (l.length - n) l ++ t).length - n) =
      (l ++ t).length - n := by
    simp [List.length_drop, List.length_append]
    omega
  have h2 : (List.drop (l.length - n) l ++ t).length - n -
      (List.drop (l.length - n) l).length = (l ++ t).length - n - l.length := by
    simp [List.length_drop, List.length_append]
    omega
  rw [h1, h2]

/-- Folding `dequePush` over a list appends it and keeps the last `n`
(for a buffer already within its bound). -/
theorem dequePush_foldl {α : Type} (n : Nat) (xs : List α) (buf : List α)
    (h : buf.length ≤ n) :
    xs.foldl (dequePush n) buf = lastN n (buf ++ xs) := by
  induction xs generalizing buf with
  | nil => simp [lastN, Nat.sub_eq_zero_of_le h]
  | cons x xs ih =>
    rw [List.foldl_cons, ih]
    · show lastN n (dequePush n buf x ++ xs) = _
      rw [dequePush, lastN_append_absorb]
      simp
    · rw [dequePush, lastN_length]
      omega

/-! ## Claim theorems -/

/-- Claim C2: `classifyComplexity` returns `complex` on any complex
keyword, else `simple` on any simple keyword, else `complex` when the
request is longer than 200 characters, else `moderate`; the complex check
takes priority, and the function is a pure function of the request. -/
theorem C2_classify_complexity (request : String) :
    (complex_keywords.any (fun k => containsSub (pyLower request) k) = true →
      analyze_complexity request = "complex") ∧
    (complex_keywords.any (fun k => containsSub (pyLower request) k) = false →
      simple_keywords.any (fun k => containsSub (pyLower request) k) = true →
      analyze_complexity request = "simple") ∧
    (complex_keywords.any (fun k => containsSub (pyLower request) k) = false →
      simple_keywords.any (fun k => containsSub (pyLower request) k) = false →
      200 < request.length →
      analyze_complexity request = "complex") ∧
    (complex_keywords.any (fun k => containsSub (pyLower request) k) = false →
      simple_keywords.any (fun k => containsSub (pyLower request) k) = false →
      request.length ≤ 200 →
      analyze_complexity request = "moderate") := by
  refine ⟨fun h1 => ?_, fun h1 h2 => ?_, fun h1 h2 h3 => ?_, fun h1 h2 h3 => ?_⟩
  · simp [analyze_complexity, h1]
  · simp [analyze_complexity, h1, h2]
  · have h4 : request.length > 200 := h3
    simp [analyze_complexity, h1, h2, h4]
  · have h4 : ¬ request.length > 200 := by omega
    simp [analyze_complexity, h1, h2, h4]

set_option maxRecDepth 8000 in
/-- Witness for C2 at one input per branch. -/
theorem C2_classify_complexity_witness :
    analyze_complexity "implement a parser" = "complex" ∧
    analyze_complexity "fix it" = "simple" ∧
    analyze_complexity long_request = "complex" ∧
    analyze_complexity "hello world" = "moderate" :=
  ⟨(C2_classify_complexity "implement a parser").1 (by decide),
   (C2_classify_complexity "fix it").2.1 (by decide) (by decide),
   (C2_classify_complexity long_request).2.2.1 (by decide) (by decide) (by decide),
   (C2_classify_complexity "hello world").2.2.2 (by decide) (by decide) (by decide)⟩

/-- Claim C3: the request "fix the bug in module.py" is classified
`simple`, planned with the `sequential` strategy, and yields exactly the
four-step debug task list. -/
theorem C3_fix_bug_scenario :
    analyze_complexity "fix the bug in module.py" = "simple" ∧
    select_strategy "simple" = "sequential" ∧
    (create_plan "fix the bug in module.py" []).complexity = some "simple" ∧
    (create_plan "fix the bug in module.py" []).tasks =
      ["Identify the bug location", "Analyze root cause", "Implement fix",
       "Verify fix works"] := by
  decide

/-- Claim C4: the dispatcher routes by first case-insensitive substring
match in the fixed priority order test > (implement|write) > analyze >
(fix|debug) > generic. -/
theorem C4_routing_priority (task : String) :
    (containsSub (pyLower task) "test" = true → routeTask task = Handler.testH) ∧
    (containsSub (pyLower task) "test" = false →
      (containsSub (pyLower task) "implement" = true ∨
        containsSub (pyLower task) "write" = true) →
      routeTask task = Handler.implementationH) ∧
    (containsSub (pyLower task) "test" = false →
      containsSub (pyLower task) "implement" = false →
      containsSub (pyLower task) "write" = false →
      containsSub (pyLower task) "analyze" = true →
      routeTask task = Handler.analyzeH) ∧
    (containsSub (pyLower task) "test" = false →
      containsSub (pyLower task) "implement" = false →
      containsSub (pyLower task) "write" = false →
      containsSub (pyLower task) "analyze" = false →
      (containsSub (pyLower task) "fix" = true ∨
        containsSub (pyLower task) "debug" = true) →
      routeTask task = Handler.debugH) ∧
    (containsSub (pyLower task) "test" = false →
      containsSub (pyLower task) "implement" = false →
      containsSub (pyLower task) "write" = false →
      containsSub (pyLower task) "analyze" = false →
      containsSub (pyLower task) "fix" = false →
      containsSub (pyLower task) "debug" = false →
      routeTask task = Handler.genericH) := by
  refine ⟨fun h1 => ?_, fun h1 h2 => ?_, fun h1 h2 h3 h4 => ?_,
    fun h1 h2 h3 h4 h5 => ?_, fun h1 h2 h3 h4 h5 h6 => ?_⟩
  · simp [routeTask, h1]
  · rcases h2 with h2 | h2 <;> simp [routeTask, h1, h2]
  · simp [routeTask, h1, h2, h3, h4]
  · rcases h5 with h5 | h5 <;> simp [routeTask, h1, h2, h3, h4, h5]
  · simp [routeTask, h1, h2, h3, h4, h5, h6]

/-- Witness for C4: "Write a test for X" routes to the test handler, which
is distinct from the implementation handler. -/
theorem C4_routing_priority_witness :
    routeTask "Write a test for X" = Handler.testH ∧
    Handler.testH ≠ Handler.implementationH :=
  ⟨(C4_routing_priority "Write a test for X").1 (by decide), by decide⟩

/-- The fold of `_synthesize_response` accumulates the summaries and code
changes of the successful results only. -/
theorem synthesize_fold (results : List TaskResult) (s : List String)
    (c : List CodeChange) :
    results.foldl
      (fun acc r =>
        if r.success then
          (acc.1 ++ [r.summary.getD "Task completed"],
           acc.2 ++ r.code_changes.getD [])
        else acc) (s, c) =
    (s ++ (results.filter (fun r => r.success)).map
        (fun r => r.summary.getD "Task completed"),
     c ++ ((results.filter (fun r => r.success)).map
        (fun r => r.code_changes.getD [])).flatten) := by
  induction results generalizing s c with
  | nil => simp
  | cons r rs ih =>
    cases hr : r.success <;> simp [hr, ih, List.append_assoc]

/-- Claim C6 counterexample: a failed result's code-change records are NOT
carried into the synthesized response, contradicting "including those of
failed results". -/
theorem C6_counterexample :
    (synthesize_response [failed_change_result]).code_changes ≠
      spec_code_changes_every_result [failed_change_result] := by
  decide

/-- Claim C6 (amended): `summary` is the newline-join of the successful
results' summaries in task order, `codeChanges` is the concatenation
(without deduplication, in task order) of the code-change records of the
SUCCESSFUL results only, `totalTasks` is the result count, and
`successfulTasks` is the number of successful results. -/
theorem C6_synthesis (results : List TaskResult) :
    synthesize_response results =
      { summary := String.intercalate "\n"
          ((results.filter (fun r => r.success)).map
            (fun r => r.summary.getD "Task completed")),
        code_changes := ((results.filter (fun r => r.success)).map
          (fun r => r.code_changes.getD [])).flatten,
        total_tasks := results.length,
        successful_tasks := (results.filter (fun r => r.success)).length } := by
  unfold synthesize_response
  rw [synthesize_fold, List.countP_eq_length_filter]
  simp

/-- `add_interaction` appends the new record to the log, pushes it on the
deque, and leaves the capacity unchanged (the long-term extraction touches
only `long_term`). -/
theorem add_interaction_state (m : MemoryManager) (ts role content : String)
    (metadata : List (String × String)) :
    (add_interaction m ts role content metadata).interactions =
      m.interactions ++ [⟨ts, role, content, metadata⟩] ∧
    (add_interaction m ts role content metadata).short_term =
      dequePush m.max_short_term m.short_term ⟨ts, role, content, metadata⟩ ∧
    (add_interaction m ts role content metadata).max_short_term =
      m.max_short_term := by
  simp [add_interaction, extract_to_long_term]

/-- Claim C7 counterexample: on a store holding one interaction in a
capacity-3 buffer, save-then-load does NOT leave the recent buffer equal to
the last-capacity slice of the restored log (the slice is appended onto the
uncleared buffer, duplicating the entry). -/
theorem C7_counterexample :
    (load_memory memC7 (save_memory memC7)).short_term ≠
      lastN memC7.max_short_term (save_memory memC7).interactions := by
  decide

/-- Claim C7 (amended): save-then-load reproduces `interactionLog` and
`factIndex` exactly; the recent buffer is rebuilt by APPENDING the last-N
slice of the restored log onto the existing buffer with FIFO eviction, so
it equals the last N entries of `short_term ++ slice`; it equals the last N
entries of the restored log itself exactly when the buffer was empty before
loading (e.g. a fresh store) or the log holds at least N entries. -/
theorem C7_roundtrip (m : MemoryManager)
    (h : m.short_term.length ≤ m.max_short_term) :
    (load_memory m (save_memory m)).interactions = m.interactions ∧
    (load_memory m (save_memory m)).long_term = m.long_term ∧
    (load_memory m (save_memory m)).short_term =
      lastN m.max_short_term
        (m.short_term ++ load_slice m.max_short_term m.interactions) ∧
    (m.short_term = [] ∨ m.max_short_term ≤ m.interactions.length →
      (load_memory m (save_memory m)).short_term =
        lastN m.max_short_term m.interactions) := by
  refine ⟨rfl, rfl, ?_, ?_⟩
  · simp only [load_memory, save_memory]
    exact dequePush_foldl m.max_short_term _ m.short_term h
  · intro hc
    simp only [load_memory, save_memory]
    rw [dequePush_foldl m.max_short_term _ m.short_term h]
    rcases Nat.eq_zero_or_pos m.max_short_term with h0 | h0
    · simp [load_slice, lastN, h0, List.drop_length]
    · rcases hc with hc | hc
      · rw [hc]
        simp only [List.nil_append, load_slice, if_neg (by omega : ¬ m.max_short_term = 0)]
        rw [show lastN m.max_short_term m.interactions =
            lastN m.max_short_term m.interactions ++ [] by simp,
          lastN_append_absorb]
        simp
      · simp only [load_slice, if_neg (by omega : ¬ m.max_short_term = 0)]
        have hlen : (lastN m.max_short_term m.interactions).length =
            m.max_short_term := by
          rw [lastN_length]; omega
        unfold lastN at hlen ⊢
        rw [List.length_append, hlen,
          show m.short_term.length + m.max_short_term - m.max_short_term =
            m.short_term.length by omega]
        exact List.drop_left _ _

/-- Witness for C7 on the one-interaction store. -/
theorem C7_roundtrip_witness :
    memC7.short_term.length ≤ memC7.max_short_term ∧
    (load_memory memC7 (save_memory memC7)).interactions = memC7.interactions ∧
    (load_memory memC7 (save_memory memC7)).long_term = memC7.long_term :=
  ⟨by decide, (C7_roundtrip memC7 (by decide)).1, (C7_roundtrip memC7 (by decide)).2.1⟩

/-- Folding `insert_all` leaves the capacity unchanged, appends the built
records to the log in order, and pushes them through the deque in order. -/
theorem insert_all_state (entries : List (String × String × String))
    (m : MemoryManager) :
    (insert_all m entries).max_short_term = m.max_short_term ∧
    (insert_all m entries).interactions =
      m.interactions ++ entries.map mk_interaction ∧
    (insert_all m entries).short_term =
      (entries.map mk_interaction).foldl (dequePush m.max_short_term)
        m.short_term := by
  induction entries generalizing m with
  | nil => simp [insert_all]
  | cons e rest ih =>
    have hstep := add_interaction_state m e.1 e.2.1 e.2.2 []
    have hrec := ih (add_interaction m e.1 e.2.1 e.2.2 [])
    refine ⟨?_, ?_, ?_⟩
    · rw [show insert_all m (e :: rest) =
          insert_all (add_interaction m e.1 e.2.1 e.2.2 []) rest from rfl]
      rw [hrec.1, hstep.2.2]
    · rw [show insert_all m (e :: rest) =
          insert_all (add_interaction m e.1 e.2.1 e.2.2 []) rest from rfl]
      rw [hrec.2.1, hstep.1]
      simp [mk_interaction]
    · rw [show insert_all m (e :: rest) =
          insert_all (add_interaction m e.1 e.2.1 e.2.2 []) rest from rfl]
      rw [hrec.2.2, hstep.2.1, hstep.2.2]
      simp [mk_interaction]

/-- Claim C8: after inserting `capacity + k` interactions into a fresh
store, `getRecentContext(capacity)` returns exactly the last `capacity`
interactions in insertion order; the earliest `k` have been evicted from
the fixed-capacity FIFO buffer, while the unbounded log retains all
`capacity + k` entries. -/
theorem C8_recent_buffer (capacity k : Nat)
    (entries : List (String × String × String))
    (h : entries.length = capacity + k) :
    get_recent_context (insert_all (init_memory capacity) entries) capacity =
      (entries.map mk_interaction).drop k ∧
    (insert_all (init_memory capacity) entries).short_term =
      (entries.map mk_interaction).drop k ∧
    (insert_all (init_memory capacity) entries).interactions =
      entries.map mk_interaction := by
  have hs := insert_all_state entries (init_memory capacity)
  have hcap : (insert_all (init_memory capacity) entries).max_short_term =
      capacity := hs.1
  have hlog : (insert_all (init_memory capacity) entries).interactions =
      entries.map mk_interaction := by
    rw [hs.2.1]; simp [init_memory]
  have hlen : (entries.map mk_interaction).length = capacity + k := by
    simp [h]
  have hbuf : (insert_all (init_memory capacity) entries).short_term =
      (entries.map mk_interaction).drop k := by
    rw [hs.2.2]
    show (entries.map mk_interaction).foldl (dequePush capacity) [] = _
    rw [dequePush_foldl capacity _ [] (by simp)]
    unfold lastN
    simp [hlen]
  refine ⟨?_, hbuf, hlog⟩
  unfold get_recent_context
  rw [hbuf]
  rcases Nat.eq_zero_or_pos capacity with h0 | h0
  · subst h0
    simp
  · rw [if_neg (by omega)]
    unfold lastN
    rw [List.length_drop, hlen]
    rw [show capacity + k - k - capacity = 0 by omega]
    simp

/-- Witness for C8 with capacity 2 and three insertions. -/
theorem C8_recent_buffer_witness :
    entriesC8.length = 2 + 1 ∧
    get_recent_context (insert_all (init_memory 2) entriesC8) 2 =
      (entriesC8.map mk_interaction).drop 1 :=
  ⟨by decide, (C8_recent_buffer 2 1 entriesC8 (by decide)).1⟩

/-- Looking up the just-assigned key of a dict yields the assigned value. -/
theorem dictFind_dictSet {α : Type} (d : List (String × α)) (k : String) (v : α) :
    dictFind (dictSet d k v) k = some v := by
  unfold dictSet
  by_cases h : d.any (fun p => p.1 = k) = true
  · rw [if_pos h]
    induction d with
    | nil => simp at h
    | cons p rest ih =>
      by_cases hp : p.1 = k
      · simp [dictFind, hp]
      · rw [List.any_cons] at h
        simp only [Bool.or_eq_true, decide_eq_true_eq] at h
        rcases h with h | h
        · exact absurd h hp
        · simpa [dictFind, hp] using ih (by simp [h])
  · rw [if_neg h]
    induction d with
    | nil => simp [dictFind]
    | cons p rest ih =>
      rw [List.any_cons] at h
      simp only [Bool.or_eq_true, decide_eq_true_eq, not_or] at h
      have := h.1
      simpa [dictFind, this] using ih (by simp [h.2])

/-- Assigning a key that does not start with `error_` never changes the
number of `error_*` keys. -/
theorem error_count_dictSet (d : List (String × Fact)) (k : String) (v : Fact)
    (h : startsWithB k "error_" = false) :
    error_count (dictSet d k v) = error_count d := by
  unfold dictSet
  by_cases hin : d.any (fun p => p.1 = k) = true
  · rw [if_pos hin]
    unfold error_count
    rw [List.filter_map]
    rw [List.filter_congr (q := fun p => startsWithB p.1 "error_")
      (fun x _ => by by_cases hp : x.1 = k <;> simp [hp])]
    simp
  · rw [if_neg hin]
    unfold error_count
    rw [List.filter_append]
    simp [h]

/-- Keys produced by the file extraction step never look like error keys. -/
theorem file_key_not_error (p : String) :
    startsWithB ("file_" ++ p) "error_" = false := by
  cases p with
  | mk data => rfl

/-- Keys produced by the function extraction step never look like error
keys. -/
theorem function_key_not_error (p : String) :
    startsWithB ("function_" ++ p) "error_" = false := by
  cases p with
  | mk data => rfl

/-- Keys produced by the class extraction step never look like error
keys. -/
theorem class_key_not_error (p : String) :
    startsWithB ("class_" ++ p) "error_" = false := by
  cases p with
  | mk data => rfl

/-- A fold of non-error-key assignments preserves the error-key count. -/
theorem error_count_foldl {β : Type} (f : β → String) (g : β → Fact)
    (hks : ∀ b, startsWithB (f b) "error_" = false) (xs : List β)
    (d : List (String × Fact)) :
    error_count (xs.foldl (fun d b => dictSet d (f b) (g b)) d) =
      error_count d := by
  induction xs generalizing d with
  | nil => rfl
  | cons x xs ih =>
    rw [List.foldl_cons, ih, error_count_dictSet _ _ _ (hks x)]

/-- The file extraction step preserves the error-key count. -/
theorem extract_files_error_count (lt : List (String × Fact)) (i : Interaction) :
    error_count (extract_files lt i) = error_count lt := by
  unfold extract_files
  split
  · exact error_count_foldl (fun path => "file_" ++ path) _
      (fun b => file_key_not_error b) _ lt
  · rfl

/-- The function/class extraction step preserves the error-key count. -/
theorem extract_defs_error_count (lt : List (String × Fact)) (i : Interaction) :
    error_count (extract_defs lt i) = error_count lt := by
  unfold extract_defs
  split
  · rw [error_count_foldl (fun name => "class_" ++ name) _
      (fun b => class_key_not_error b)]
    exact error_count_foldl (fun name => "function_" ++ name) _
      (fun b => function_key_not_error b) _ lt
  · rfl

/-- Claim C9 (general part): when the content mentions "error" or
"exception" (case-insensitively), `addInteraction` stores a fact under key
`error_<k>`, where `k` is the number of `error_*` keys present at insertion
time, holding the timestamp and the first 200 characters of the content. -/
theorem C9_error_fact (m : MemoryManager) (ts role content : String)
    (metadata : List (String × String))
    (h : containsSub (pyLower content) "error" = true ∨
         containsSub (pyLower content) "exception" = true) :
    dictFind (add_interaction m ts role content metadata).long_term
        ("error_" ++ toString (error_count m.long_term)) =
      some (Fact.errorFact ts (sliceTo content 200)) := by
  show dictFind (extract_errors (extract_defs (extract_files m.long_term _) _) _)
      ("error_" ++ toString (error_count m.long_term)) = _
  unfold extract_errors
  rw [if_pos (by rcases h with h | h <;> simp [h])]
  rw [extract_defs_error_count, extract_files_error_count]
  exact dictFind_dictSet _ _ _

/-- Witness for C9: the scenario `addInteraction("user", "see src/app.py
for the error")` on an empty store produces both the `file_src/app.py` fact
and the `error_0` fact. -/
theorem C9_error_fact_witness :
    dictFind (add_interaction (init_memory 100) "t0" "user"
        "see src/app.py for the error" []).long_term "file_src/app.py" =
      some (Fact.fileFact "t0" "see src/app.py for the error") ∧
    dictFind (add_interaction (init_memory 100) "t0" "user"
        "see src/app.py for the error" []).long_term "error_0" =
      some (Fact.errorFact "t0" "see src/app.py for the error") :=
  ⟨by decide,
   C9_error_fact (init_memory 100) "t0" "user" "see src/app.py for the error"
     [] (Or.inl (by decide))⟩

/-- Claim C1 (code bug): `pending_tasks = plan.tasks` binds the same list
object that the `for` loop iterates, and `pending_tasks.remove(task)`
shortens it mid-iteration, so the loop executes only the tasks at original
indices 0, 2, 4, ... — on the four-task debug plan it runs tasks 0 and 2
and leaves tasks 1 and 3 unexecuted in `pending_tasks`, contradicting
"executes every task of plan.tasks exactly once". -/
theorem C1_loop_skips_tasks :
    (create_plan "fix the bug in module.py" []).tasks =
      ["Identify the bug location", "Analyze root cause", "Implement fix",
       "Verify fix works"] ∧
    (process_request env0 (Except.ok (create_plan "fix the bug in module.py" []))
        "fix the bug in module.py" init_agent).2.completed_tasks =
      ["Identify the bug location", "Implement fix"] ∧
    (process_request env0 (Except.ok (create_plan "fix the bug in module.py" []))
        "fix the bug in module.py" init_agent).2.pending_tasks =
      ["Analyze root cause", "Verify fix works"] ∧
    (process_request env0 (Except.ok (create_plan "fix the bug in module.py" []))
        "fix the bug in module.py" init_agent).1.tasks_completed =
      ["Identify the bug location", "Implement fix"] ∧
    ((process_request env0 (Except.ok (create_plan "fix the bug in module.py" []))
        "fix the bug in module.py" init_agent).1.response.getD
      { summary := "", code_changes := [], total_tasks := 0,
        successful_tasks := 0 }).total_tasks = 2 := by
  decide

/-- Claim C5: two error tiers.  (a) an exception raised inside a handler is
converted by the dispatcher into the `{success: false, error, task}` dict
instead of propagating; (b) a plan-creation failure makes `process_request`
return `{success: false, error, tasks_completed}` with the previously
completed tasks preserved; and when the plan is produced, the request
always returns `success = true` — per-task failures never abort the task
loop, whatever the handlers do. -/
theorem C5_error_tiers (env : Env) (planResult : Except String TaskPlan)
    (user_request : String) (a : Agent) :
    (∀ task e, env.run (routeTask task) task = Except.error e →
      dispatchTask env task = handlerFailure e task) ∧
    (∀ e, planResult = Except.error e →
      (process_request env planResult user_request a).1 =
        { success := false, error := some e, response := none,
          tasks_completed := a.completed_tasks, artifacts := none }) ∧
    (∀ plan, planResult = Except.ok plan →
      (process_request env planResult user_request a).1.success = true) := by
  refine ⟨fun task e he => ?_, fun e he => ?_, fun plan hp => ?_⟩
  · simp [dispatchTask, he]
  · subst he
    simp [process_request]
  · subst hp
    simp [process_request]

/-- Witness for C5: with handlers that always raise, a dispatched task
yields the converted failure dict, a failed plan creation yields the
request-level failure dict, and a four-task plan still completes with
`success = true` (its two dispatched tasks both failed, none aborted the
loop). -/
theorem C5_error_tiers_witness :
    dispatchTask env_throw "analyze the data" =
      handlerFailure "boom" "analyze the data" ∧
    (process_request env_throw (Except.error "planfail") "req" init_agent).1 =
      { success := false, error := some "planfail", response := none,
        tasks_completed := [], artifacts := none } ∧
    (process_request env_throw
        (Except.ok (create_plan "fix the bug in module.py" [])) "req"
        init_agent).1.success = true ∧
    ((process_request env_throw
        (Except.ok (create_plan "fix the bug in module.py" [])) "req"
        init_agent).1.response.getD
      { summary := "", code_changes := [], total_tasks := 0,
        successful_tasks := 0 }).successful_tasks = 0 :=
  ⟨(C5_error_tiers env_throw (Except.error "planfail") "req" init_agent).1
      "analyze the data" "boom" rfl,
   (C5_error_tiers env_throw (Except.error "planfail") "req" init_agent).2.1
      "planfail" rfl,
   (C5_error_tiers env_throw
      (Except.ok (create_plan "fix the bug in module.py" [])) "req"
      init_agent).2.2 (create_plan "fix the bug in module.py" []) rfl,
   by decide⟩

/-- The task loop only appends to `completed_tasks`. -/
theorem task_loop_completed_append (env : Env) (fuel : Nat) :
    ∀ (k i : Nat) (tasks : List String) (a : Agent)
      (results : List TaskResult),
      ∃ new : List String,
        (task_loop env fuel k i tasks a results).agent.completed_tasks =
          a.completed_tasks ++ new := by
  induction fuel with
  | zero => exact fun k i tasks a results => ⟨[], by simp [task_loop]⟩
  | succ fuel ih =>
    intro k i tasks a results
    by_cases h : i < tasks.length
    · rw [task_loop, dif_pos h]
      obtain ⟨new2, hn⟩ := ih (k + 1) (i + 1)
        (list_remove tasks (tasks.get ⟨i, h⟩)) _ (results ++ [_])
      exact ⟨tasks.get ⟨i, h⟩ :: new2, by rw [hn]; simp⟩
    · rw [task_loop, dif_neg h]
      exact ⟨[], by simp⟩

/-- Claim C10: within one session (no `reset()`), `completed_tasks` is
append-only across `process_request` calls, and the `tasks_completed` field
of every response — success or failure — is the session-cumulative
completed list. -/
theorem C10_session_cumulative (env : Env) (planResult : Except String TaskPlan)
    (user_request : String) (a : Agent) :
    (∃ new : List String,
      (process_request env planResult user_request a).2.completed_tasks =
        a.completed_tasks ++ new) ∧
    (process_request env planResult user_request a).1.tasks_completed =
      (process_request env planResult user_request a).2.completed_tasks := by
  cases planResult with
  | error e =>
    exact ⟨⟨[], by simp [process_request]⟩, by simp [process_request]⟩
  | ok plan =>
    constructor
    · obtain ⟨new, hn⟩ := task_loop_completed_append env plan.tasks.length 1 0
        plan.tasks
        ⟨a.current_task, a.completed_tasks, plan.tasks, a.context,
          add_interaction a.memory (env.clock 0) "user" user_request []⟩ []
      exact ⟨new, by simp only [process_request]; simpa using hn⟩
    · rfl

end DevonAgent
